import Mathlib

/-!
Shallow embedding of the hierarchical data aggregation and reshaping engine of
the Dashboard Builder repository:
* the KPI aggregator of `src/components/GlobalKPICards.tsx` (the `kpiData`
  `useMemo` body, called `computeKpis` by the specification), and
* the hierarchy reconstructor of `src/lib/dashboard-generator.ts`
  (`extractValueData`, `extractVolumeData`, `extractSegmentationData`).

JavaScript numbers are modelled as rationals (`ℚ`); the single genuinely
real-valued operation (`Math.pow` in the CAGR formula) is modelled separately
with real exponentiation.  JavaScript objects used as string-keyed maps are
modelled as association lists in insertion order, which matches the iteration
order of JS `Map`s and of plain objects with string keys as the code uses them.
`undefined`/`null` fields are modelled as `Option`.
-/

/-- One row of the flat dataset (`geography_segment_matrix` entries).
Fields are named after the JSON/TS fields read by the code.  `is_aggregated`
is `Option Bool` because the code distinguishes strict `=== false` from
absent/undefined; `aggregation_level` is `Option Int` with `none` standing for
`null`/`undefined`. -/
structure SegRecord where
  geography : String
  segment_type : String
  level_1 : Option String
  level_2 : Option String
  level_3 : Option String
  level_4 : Option String
  level_5 : Option String
  time_series : List (String × ℚ)
  cagr : Option ℚ
  is_aggregated : Option Bool
  aggregation_level : Option Int
deriving DecidableEq

/-- `filters.dataType` -/
inductive DataType where
  | value : DataType
  | volume : DataType
deriving DecidableEq

/-- `filters.viewMode` -/
inductive ViewMode where
  | normal : ViewMode
  | geographyMode : ViewMode
  | matrix : ViewMode
deriving DecidableEq

/-- The filter selection consumed by the KPI aggregator. -/
structure Filters where
  geographies : List String
  segmentType : Option String
  dataType : DataType
  yearRange : Option (Int × Int)
  viewMode : ViewMode
deriving DecidableEq

/-- The slice of the dashboard data object read by the KPI aggregator:
the two record matrices and `Object.keys(data.dimensions.segments)`. -/
structure DashData where
  valueMatrix : List SegRecord
  volumeMatrix : List SegRecord
  segmentTypeKeys : List String
deriving DecidableEq

/-- The computable fields of the `kpiData` summary object.  The `cagr` field
of the source object is real-valued (it uses `Math.pow`); it is recovered from
these fields by `kpiCagr` below.  Display-only fields not involved in any
claim (currency, unit, dataTypeLabel, isINR) are omitted. -/
structure KpiSummary where
  marketSizeStart : ℚ
  marketSizeEnd : ℚ
  startYear : Int
  endYear : Int
  absoluteGrowth : ℚ
  growthPercentage : ℚ
  geographyLabel : String
  segmentTypeLabel : String
deriving DecidableEq

/-- JS `parseInt` in base 10 on the strings the code feeds it: skip leading
whitespace, optional sign, then the longest digit prefix; `none` (JS `NaN`)
when no digit is found. -/
def parseIntOpt (s : String) : Option Int :=
  let l := s.data.dropWhile (fun c => c = ' ' ∨ c = '\t' ∨ c = '\n' ∨ c = '\r')
  let signRest : Int × List Char :=
    match l with
    | '-' :: r => (-1, r)
    | '+' :: r => (1, r)
    | r => (1, r)
  let ds := signRest.2.takeWhile Char.isDigit
  if ds.isEmpty then none
  else some (signRest.1 * (ds.foldl (fun a c => a * 10 + (c.toNat - '0'.toNat)) 0 : Nat))

/-- `record.time_series[y] || record.time_series[String(y)] || 0`.  In JS a
numeric property key is coerced to its decimal string, so both lookups read
the same key; a stored value of `0` is falsy and falls through to the final
`|| 0`, which yields `0` as well, so the whole expression is lookup-or-zero. -/
def yearValue (r : SegRecord) (y : Int) : ℚ :=
  (r.time_series.lookup (toString y)).getD 0

/-- `r.aggregation_level || 999` (note that a level of `0` is falsy in JS). -/
def levelD (r : SegRecord) : Int :=
  match r.aggregation_level with
  | some l => if l = 0 then 999 else l
  | none => 999

/-- Insertion-order grouping, as built by the code with a JS `Map` whose
values are pushed-to arrays: a record with a known key is appended to its
group, a new key appends a new group at the end. -/
def insertGroup (acc : List (String × List SegRecord)) (k : String) (r : SegRecord) :
    List (String × List SegRecord) :=
  match acc with
  | [] => [(k, [r])]
  | (k', g) :: rest =>
      if k' = k then (k', g ++ [r]) :: rest
      else (k', g) :: insertGroup rest k r

/-- Group a record list by a string key, preserving first-encounter order of
keys and input order within each group (JS `Map` iteration semantics). -/
def groupByKey (key : SegRecord → String) (rs : List SegRecord) :
    List (String × List SegRecord) :=
  rs.foldl (fun acc r => insertGroup acc (key r) r) []

/-- `Math.min(...)` over a nonempty list of levels (the code guards the call
with `firstSegTypeRecords.length > 0`); `999` is returned for `[]` but that
case is unreachable. -/
def minLevelOf (rs : List SegRecord) : Int :=
  match rs.map levelD with
  | [] => 999
  | x :: xs => xs.foldl min x

/-- Geography-mode per-geography selection (GlobalKPICards.tsx lines 76-98):
take the records of the first segment type encountered, then prefer
`!r.is_aggregated` (falsy: absent or `false`), then `aggregation_level === 1`,
then the minimum `r.aggregation_level || 999`. -/
def geoModePick (geoRecords : List SegRecord) : List SegRecord :=
  let bySegmentType := groupByKey (fun r => r.segment_type) geoRecords
  let firstSegTypeRecords := (bySegmentType.head?.map Prod.snd).getD []
  let t1 := firstSegTypeRecords.filter (fun r => r.is_aggregated ≠ some true)
  if ¬ t1.isEmpty then t1
  else
    let t2 := firstSegTypeRecords.filter (fun r => r.aggregation_level = some 1)
    if ¬ t2.isEmpty then t2
    else if ¬ firstSegTypeRecords.isEmpty then
      let minLevel := minLevelOf firstSegTypeRecords
      firstSegTypeRecords.filter (fun r => levelD r = minLevel)
    else []

/-- Geography-mode de-duplication (lines 63-102): group by geography, pick per
geography, concatenate in geography first-encounter order. -/
def geoModeDedup (rs : List SegRecord) : List SegRecord :=
  (groupByKey (fun r => r.geography) rs).foldl (fun acc g => acc ++ geoModePick g.2) []

/-- The update condition of the third non-geography tier (line 127):
`record.aggregation_level && record.aggregation_level < (existing.aggregation_level || 999)`. -/
def replacesExisting (r existing : SegRecord) : Bool :=
  match r.aggregation_level with
  | some l => decide (l ≠ 0) && decide (l < levelD existing)
  | none => false

/-- `geoMap.set` driven by the guard at line 127; a JS `Map` keeps an
overwritten key at its original position, a new key is appended. -/
def geoMapSet (m : List (String × SegRecord)) (k : String) (r : SegRecord) :
    List (String × SegRecord) :=
  match m with
  | [] => [(k, r)]
  | (k', e) :: rest =>
      if k' = k then
        if replacesExisting r e then (k', r) :: rest else (k', e) :: rest
      else (k', e) :: geoMapSet rest k r

/-- Third non-geography tier (lines 121-132): deduplicate by
`geography::segment_type`, keeping per key the record with the lowest truthy
aggregation level seen. -/
def dedupByGeoSeg (rs : List SegRecord) : List SegRecord :=
  (rs.foldl (fun m r => geoMapSet m (r.geography ++ "::" ++ r.segment_type) r) []).map Prod.snd

/-- Non-geography-mode selection (lines 111-133): strict leaf records
(`is_aggregated === false`), else `aggregation_level === 1`, else the
dedup-by-pair tier. -/
def nonGeoSelect (globalRecords : List SegRecord) : List SegRecord :=
  let t1 := globalRecords.filter (fun r => r.is_aggregated = some false)
  if ¬ t1.isEmpty then t1
  else
    let t2 := globalRecords.filter (fun r => r.aggregation_level = some 1)
    if ¬ t2.isEmpty then t2
    else dedupByGeoSeg globalRecords

/-- A JS-truthy string option: `null`/`undefined` and `""` are falsy. -/
def truthyStr : Option String → Option String
  | some t => if t = "" then none else some t
  | none => none

/-- `filters.segmentType || segmentTypes[0] || null` followed by the
`!targetSegmentType` null-return guard (lines 26-32). -/
def targetSegTypeOf (data : DashData) (filters : Filters) : Option String :=
  match truthyStr filters.segmentType with
  | some t => some t
  | none => truthyStr data.segmentTypeKeys.head?

/-- Dataset choice by `filters.dataType` (lines 35-37). -/
def datasetOf (data : DashData) (filters : Filters) : List SegRecord :=
  match filters.dataType with
  | DataType.value => data.valueMatrix
  | DataType.volume => data.volumeMatrix

/-- The record filter of lines 48-59. -/
def matchesFilters (isGeoMode : Bool) (geos : List String) (tst : String) (r : SegRecord) : Bool :=
  (geos.isEmpty || geos.contains r.geography) && (isGeoMode || r.segment_type == tst)

/-- Step-2 filtering (lines 48-59). -/
def globalRecordsOf (data : DashData) (filters : Filters) (tst : String) : List SegRecord :=
  (datasetOf data filters).filter
    (matchesFilters (filters.viewMode = ViewMode.geographyMode) filters.geographies tst)

/-- Steps 3/4: geography-mode de-dup (guarded by nonemptiness as at line 63)
or the non-geography tier selection. -/
def preSelectedOf (data : DashData) (filters : Filters) (tst : String) : List SegRecord :=
  let g := globalRecordsOf data filters tst
  if filters.viewMode = ViewMode.geographyMode then
    if ¬ g.isEmpty then geoModeDedup g else g
  else nonGeoSelect g

/-- The fallback record set of lines 138-148: all geographies for the target
segment type, with the leaf / level-1 / everything tiers. -/
def fallbackOf (data : DashData) (filters : Filters) (tst : String) : List SegRecord :=
  let allRecordsForSegmentType := (datasetOf data filters).filter (fun r => r.segment_type == tst)
  let f1 := allRecordsForSegmentType.filter (fun r => r.is_aggregated = some false)
  if ¬ f1.isEmpty then f1
  else
    let f2 := allRecordsForSegmentType.filter (fun r => r.aggregation_level = some 1)
    if ¬ f2.isEmpty then f2
    else allRecordsForSegmentType

/-- Final working set (lines 135-154).  The source also clears its local
`selectedGeographies` variable when the fallback is used (line 152), but that
variable is never read again afterwards — the display label at line 213 is
recomputed from `filters.geographies` — so the clearing has no observable
effect and carries no state here. -/
def selectedRecordsOf (data : DashData) (filters : Filters) (tst : String) : List SegRecord :=
  let pre := preSelectedOf data filters tst
  if pre.isEmpty && ¬ filters.geographies.isEmpty then
    let fb := fallbackOf data filters tst
    if ¬ fb.isEmpty then fb else pre
  else pre

/-- The geography display label (lines 213-219), computed from
`filters.geographies` (not from the fallback-cleared local variable). -/
def geographyLabelOf (geos : List String) : String :=
  if geos.isEmpty then "All Geographies"
  else if geos.length = 1 then (geos.head?).getD ""
  else
    toString geos.length ++ " Geographies (" ++ String.intercalate ", " (geos.take 2)
      ++ (if geos.length > 2 then "..." else "") ++ ")"

/-- The years parsed from the keys of a time series:
`Object.keys(ts).map(parseInt).filter(!isNaN)`.  The source also sorts this
array but only ever takes `Math.min`/`Math.max` of it, so the sort is
order-irrelevant here. -/
def parsedYears (ts : List (String × ℚ)) : List Int :=
  ts.filterMap (fun p => parseIntOpt p.1)

/-- The KPI aggregator: the body of the `kpiData` `useMemo` in
`GlobalKPICards.tsx` (lines 11-238), restricted to the fields the claims are
about.  Returns `none` exactly where the source returns `null`. -/
def computeKpis (data : DashData) (filters : Filters) : Option KpiSummary :=
  match targetSegTypeOf data filters with
  | none => none
  | some tst =>
    if (datasetOf data filters).isEmpty then none
    else
      let sel := selectedRecordsOf data filters tst
      if sel.isEmpty then none
      else
        let fallbackRange := filters.yearRange.getD (2024, 2032)
        let sampleTimeSeries := (sel.head?.map (fun r => r.time_series)).getD []
        let availableYears := parsedYears sampleTimeSeries
        let actualStartYear :=
          match availableYears with
          | [] => fallbackRange.1
          | y :: ys => ys.foldl min y
        let actualEndYear :=
          match availableYears with
          | [] => fallbackRange.2
          | y :: ys => ys.foldl max y
        let marketSizeStart := sel.foldl (fun acc r => acc + yearValue r actualStartYear) 0
        let marketSizeEnd := sel.foldl (fun acc r => acc + yearValue r actualEndYear) 0
        some
          { marketSizeStart := marketSizeStart
            marketSizeEnd := marketSizeEnd
            startYear := actualStartYear
            endYear := actualEndYear
            absoluteGrowth := marketSizeEnd - marketSizeStart
            growthPercentage :=
              if marketSizeStart > 0 then (marketSizeEnd - marketSizeStart) / marketSizeStart * 100
              else 0
            geographyLabel := geographyLabelOf filters.geographies
            segmentTypeLabel := tst }

/-- The real-valued `cagr` field of the summary object (lines 183-186):
`(Math.pow(end/start, 1/years) - 1) * 100` when `marketSizeStart > 0 && years > 0`,
else `0`. -/
noncomputable def cagrReal (s e : ℚ) (ys ye : Int) : ℝ :=
  if 0 < s ∧ ys < ye then
    (((e / s : ℚ) : ℝ) ^ ((1 : ℝ) / ((ye - ys : ℤ) : ℝ)) - 1) * 100
  else 0

/-- The `cagr` carried by a summary. -/
noncomputable def kpiCagr (k : KpiSummary) : ℝ :=
  cagrReal k.marketSizeStart k.marketSizeEnd k.startYear k.endYear

/-! ## The exported tree

A node of the reconstructed JSON tree.  In JavaScript a single object carries
segment-child keys, year keys, `CAGR`, `_aggregated` and `_level` in one key
namespace; the claims never involve a collision between a child label and one
of the other keys, so the namespaces are modelled as separate fields.
`aggregatedFlag = true` models the presence of `_aggregated: true` (the code
only ever sets it to `true`), `cagrField`/`levelField` model the presence and
value of `CAGR`/`_level`. -/
inductive VNode where
  | mk : List (String × VNode) → List (String × ℚ) → Option String → Bool → Option Int → VNode

def VNode.children : VNode → List (String × VNode)
  | VNode.mk c _ _ _ _ => c

def VNode.years : VNode → List (String × ℚ)
  | VNode.mk _ y _ _ _ => y

def VNode.cagrField : VNode → Option String
  | VNode.mk _ _ c _ _ => c

def VNode.aggregatedFlag : VNode → Bool
  | VNode.mk _ _ _ a _ => a

def VNode.levelField : VNode → Option Int
  | VNode.mk _ _ _ _ l => l

/-- A fresh `{}` node. -/
def emptyNode : VNode := VNode.mk [] [] none false none

/-- Replace the first entry with the given key by `f` of it, or append
`(k, f emptyNode)` — the object-property update `parent[k]` with
create-if-absent. -/
def setChildList (cs : List (String × VNode)) (k : String) (f : VNode → VNode) :
    List (String × VNode) :=
  match cs with
  | [] => [(k, f emptyNode)]
  | (k', c) :: rest =>
      if k' = k then (k', f c) :: rest
      else (k', c) :: setChildList rest k f

/-- Apply `f` to the child named `k` (created empty when absent). -/
def setChild (n : VNode) (k : String) (f : VNode → VNode) : VNode :=
  VNode.mk (setChildList n.children k f) n.years n.cagrField n.aggregatedFlag n.levelField

/-- First-match association lookup among children. -/
def findChildList : List (String × VNode) → String → Option VNode
  | [], _ => none
  | (k', c) :: rest, k => if k' = k then some c else findChildList rest k

/-- Property read `n[k]` among the children. -/
def findChild (n : VNode) (k : String) : Option VNode :=
  findChildList n.children k

/-- Walk a key path. -/
def getNodeAt (n : VNode) : List String → Option VNode
  | [] => some n
  | s :: rest =>
      match findChild n s with
      | none => none
      | some c => getNodeAt c rest

/-- `current = current[s₁][s₂]…`, creating empty intermediate objects, then
apply `f` at the end of the path. -/
def modifyAtPath (n : VNode) : List String → (VNode → VNode) → VNode
  | [], f => f n
  | s :: rest, f => setChild n s (fun c => modifyAtPath c rest f)

/-- The node a walk would reach, taking a fresh `{}` wherever a child is
missing; `modifyAtPath` applies its function to exactly this node. -/
def nodeAtOrEmpty (n : VNode) : List String → VNode
  | [] => n
  | s :: rest => nodeAtOrEmpty ((findChild n s).getD emptyNode) rest

/-- Year-entry assignment `current[year] = value`: overwrite in place or
append. -/
def setYear (ys : List (String × ℚ)) (k : String) (v : ℚ) : List (String × ℚ) :=
  match ys with
  | [] => [(k, v)]
  | (k', v') :: rest =>
      if k' = k then (k', v) :: rest
      else (k', v') :: setYear rest k v

/-- JS truthiness of `record.cagr` (`0`, `null`, `undefined` are falsy). -/
def truthyCagr (r : SegRecord) : Bool :=
  match r.cagr with
  | some q => decide (q ≠ 0)
  | none => false

/-- `` current.CAGR = `${record.cagr}%` `` — the numeral rendering of `ℚ`
stands in for the JS number-to-string conversion. -/
def cagrString (q : ℚ) : String := toString q ++ "%"

/-- The hierarchy labels of a record:
`[level_1, …, level_5].filter(Boolean).slice(0, MAX_SEGMENT_DEPTH)`
(absent levels and empty strings are falsy; `MAX_SEGMENT_DEPTH = 10`). -/
def segmentsOf (r : SegRecord) : List String :=
  (([r.level_1, r.level_2, r.level_3, r.level_4, r.level_5].filterMap id).filter
    (fun s => s ≠ "")).take 10

/-- The descent loop of `extractValueData`/`extractVolumeData` (lines
185-199 / 255-269): stop when `depth >= 10`, descend and count only non-empty
string labels. -/
def walkSegments : List String → Nat → List String
  | [], _ => []
  | s :: rest, depth =>
      if depth ≥ 10 then []
      else if s ≠ "" then s :: walkSegments rest (depth + 1)
      else walkSegments rest depth

/-- The full key path at which a record's leaf lives:
`result[geography][segment_type]` followed by the walked hierarchy labels. -/
def fullPath (r : SegRecord) : List String :=
  r.geography :: r.segment_type :: walkSegments (segmentsOf r) 0

/-- The leaf update of `extractValueData` (lines 201-217): merge year
entries, set `CAGR` when `record.cagr` is truthy, and when
`record.is_aggregated` is truthy set `_aggregated = true` and, when
`aggregation_level !== null`, `_level = aggregation_level`. -/
def applyValueLeaf (r : SegRecord) (n : VNode) : VNode :=
  let ys := r.time_series.foldl (fun acc p => if p.1 ≠ "" then setYear acc p.1 p.2 else acc) n.years
  let cf := if truthyCagr r then some (cagrString ((r.cagr).getD 0)) else n.cagrField
  let ag := n.aggregatedFlag || (r.is_aggregated = some true)
  let lv :=
    if r.is_aggregated = some true then
      match r.aggregation_level with
      | some l => some l
      | none => n.levelField
    else n.levelField
  VNode.mk n.children ys cf ag lv

/-- The leaf update of `extractVolumeData` (lines 271-279): year entries and
`CAGR` only — no `_aggregated`/`_level` markers appear in the volume export. -/
def applyVolumeLeaf (r : SegRecord) (n : VNode) : VNode :=
  let ys := r.time_series.foldl (fun acc p => if p.1 ≠ "" then setYear acc p.1 p.2 else acc) n.years
  let cf := if truthyCagr r then some (cagrString ((r.cagr).getD 0)) else n.cagrField
  VNode.mk n.children ys cf n.aggregatedFlag n.levelField

/-- Insert one record into the value tree. -/
def insertValueRecord (t : VNode) (r : SegRecord) : VNode :=
  modifyAtPath t (fullPath r) (applyValueLeaf r)

/-- Insert one record into the volume tree. -/
def insertVolumeRecord (t : VNode) (r : SegRecord) : VNode :=
  modifyAtPath t (fullPath r) (applyVolumeLeaf r)

/-- `extractValueData` (dashboard-generator.ts lines 159-221) over the value
matrix. -/
def extractValueData (rs : List SegRecord) : VNode :=
  rs.foldl insertValueRecord emptyNode

/-- `extractVolumeData` (lines 226-283) over the volume matrix. -/
def extractVolumeData (rs : List SegRecord) : VNode :=
  rs.foldl insertVolumeRecord emptyNode

/-! ## Structural-only export (`extractSegmentationData`) -/

/-- One segment dimension: `items` and the parent→children `hierarchy` map. -/
structure SegmentDim where
  items : List String
  hierarchy : List (String × List String)
deriving DecidableEq

/-- `hierarchy[item]`, with `undefined` behaving as no children. -/
def lookupHier (h : List (String × List String)) (item : String) : List String :=
  (h.lookup item).getD []

/-- The `buildHierarchy` recursion of `extractSegmentationData` (lines
303-329).  The source checks `level > MAX_HIERARCHY_DEPTH` (20) on entry to
each recursive call; here that check is performed at the single recursive
call site, which is observably the same.  `visited` models the mutable
`visitedItems` set: the source adds `itemPath` before recursing and deletes
it afterwards, so the set seen by any call is exactly the paths on the
current call stack, which is what is passed down here.  The extra `fuel`
argument only makes the recursion structural; every call keeps
`fuel = 21 - level`, and since descent stops once `level + 1 > 20`, the
`fuel = 0` branch is unreachable from `buildHierarchy`. -/
def buildItems (hier : List (String × List String)) :
    Nat → List String → VNode → Nat → String → List String → VNode
  | 0, _, parent, _, _, _ => parent
  | fuel + 1, items, parent, level, path, visited =>
      items.foldl
        (fun par item =>
          let itemPath := if path = "" then item else path ++ " > " ++ item
          if visited.contains itemPath then par
          else
            let par1 := setChild par item (fun c => c)
            let children := lookupHier hier item
            if children.isEmpty then par1
            else
              setChild par1 item (fun sub =>
                if level + 1 > 20 then sub
                else buildItems hier fuel children sub (level + 1) itemPath (itemPath :: visited)))
        parent

/-- The entry point of the recursion, including the depth guard as written at
the top of the source function. -/
def buildHierarchy (hier : List (String × List String)) (items : List String)
    (parent : VNode) (level : Nat) (path : String) (visited : List String) : VNode :=
  if level > 20 then parent else buildItems hier (21 - level) items parent level path visited

/-- Top-level items: those never listed as a child in any hierarchy entry
(line 332). -/
def topLevelItems (dim : SegmentDim) : List String :=
  dim.items.filter (fun item => ¬ dim.hierarchy.any (fun pc => pc.2.contains item))

/-- `extractSegmentationData` (lines 288-339): for each geography and segment
type, assign a freshly built hierarchy tree. -/
def extractSegmentationData (allGeographies : List String)
    (segments : List (String × SegmentDim)) : VNode :=
  allGeographies.foldl
    (fun res geo =>
      setChild res geo (fun geoNode =>
        segments.foldl
          (fun gn st =>
            setChild gn st.1 (fun _ =>
              buildHierarchy st.2.hierarchy (topLevelItems st.2) emptyNode 0 "" []))
          geoNode))
    emptyNode

/-- Presence of a boolean-observable field at a path (`false` when the path
does not exist). -/
def flagAt (h : VNode → Bool) (t : VNode) (p : List String) : Bool :=
  match getNodeAt t p with
  | some n => h n
  | none => false

/-- Presence of the `CAGR` key on a node. -/
def cagrPresent (n : VNode) : Bool := n.cagrField.isSome

/-- Presence of the `_aggregated: true` marker on a node. -/
def aggPresent (n : VNode) : Bool := n.aggregatedFlag

/-- Presence of the `_level` key on a node. -/
def levelPresent (n : VNode) : Bool := n.levelField.isSome

/-! ## Concrete inputs used to evaluate the engine -/

/-- Convenience constructor for a record, filling the five hierarchy levels
from a list. -/
def mkRec (geo st : String) (lvls : List String) (ts : List (String × ℚ))
    (agg : Option Bool) (al : Option Int) (cg : Option ℚ) : SegRecord :=
  { geography := geo, segment_type := st,
    level_1 := lvls.get? 0, level_2 := lvls.get? 1, level_3 := lvls.get? 2,
    level_4 := lvls.get? 3, level_5 := lvls.get? 4,
    time_series := ts, cagr := cg, is_aggregated := agg, aggregation_level := al }

/-- Leaf record of segment type `S1`, geography `G`, value 100 in 2024. -/
def c1r1 : SegRecord := mkRec "G" "S1" ["A"] [("2024", 100)] (some false) none none

/-- Leaf record of a second segment type `S2` for the same geography. -/
def c1r2 : SegRecord := mkRec "G" "S2" ["B"] [("2024", 100)] (some false) none none

/-- Two segment types for one geography, each a leaf summing to 100. -/
def c1data : DashData :=
  { valueMatrix := [c1r1, c1r2], volumeMatrix := [], segmentTypeKeys := ["S1", "S2"] }

/-- Geography-mode filters with no geography selection. -/
def c1filters : Filters :=
  { geographies := [], segmentType := none, dataType := DataType.value,
    yearRange := none, viewMode := ViewMode.geographyMode }

/-- A leaf record (`is_aggregated === false`) worth 100. -/
def c2leaf : SegRecord := mkRec "G" "S" ["A"] [("2024", 100)] (some false) none none

/-- An aggregated level-1 roll-up of the same geography/segment/year, also 100. -/
def c2agg : SegRecord := mkRec "G" "S" [] [("2024", 100)] (some true) (some 1) none

/-- Leaf plus roll-up for the same geography/segment type. -/
def c2data : DashData :=
  { valueMatrix := [c2leaf, c2agg], volumeMatrix := [], segmentTypeKeys := ["S"] }

/-- Normal-mode filters targeting segment type `S`. -/
def c2filters : Filters :=
  { geographies := [], segmentType := some "S", dataType := DataType.value,
    yearRange := none, viewMode := ViewMode.normal }

/-- A segment dimension whose hierarchy contains the cycle `T → A → B → A`. -/
def cyclicDim : SegmentDim :=
  { items := ["T", "A", "B"],
    hierarchy := [("T", ["A"]), ("A", ["B"]), ("B", ["A"])] }

/-- The structural export built from the cyclic dimension. -/
def cyclicSegTree : VNode := extractSegmentationData ["G"] [("By X", cyclicDim)]

/-- The only record in the dataset lives in the `US` geography. -/
def c4us : SegRecord :=
  mkRec "US" "S" ["A"] [("2024", 100), ("2025", 110)] (some false) none none

/-- A dataset with no records for the selected geography `India`. -/
def c4data : DashData :=
  { valueMatrix := [c4us], volumeMatrix := [], segmentTypeKeys := ["S"] }

/-- Filters selecting the geography `India`, which matches no record. -/
def c4filters : Filters :=
  { geographies := ["India"], segmentType := some "S", dataType := DataType.value,
    yearRange := none, viewMode := ViewMode.normal }

/-- An aggregated record (`is_aggregated = true`, `aggregation_level = 2`). -/
def c5r : SegRecord := mkRec "G" "S" ["A"] [("2024", 100)] (some true) (some 2) none

/-- A single leaf record with years 2024 and 2032. -/
def c6rec : SegRecord :=
  mkRec "G" "S" ["A"] [("2024", 100), ("2032", 200)] (some false) none none

/-- Dataset holding only `c6rec`. -/
def c6data : DashData :=
  { valueMatrix := [c6rec], volumeMatrix := [], segmentTypeKeys := ["S"] }

/-- Normal-mode filters over all geographies for segment type `S`. -/
def c6filters : Filters :=
  { geographies := [], segmentType := some "S", dataType := DataType.value,
    yearRange := none, viewMode := ViewMode.normal }

/-- The summary the aggregator produces for `c6data`/`c6filters`. -/
def c6summary : KpiSummary :=
  { marketSizeStart := 100, marketSizeEnd := 200, startYear := 2024, endYear := 2032,
    absoluteGrowth := 100, growthPercentage := 100,
    geographyLabel := "All Geographies", segmentTypeLabel := "S" }

/-- A record of segment type `S` (so segment type `T2` is absent). -/
def c7rec : SegRecord := mkRec "G" "S" ["A"] [("2024", 100)] (some false) none none

/-- Dataset whose only segment type is `S`. -/
def c7data : DashData :=
  { valueMatrix := [c7rec], volumeMatrix := [], segmentTypeKeys := ["S"] }

/-- Filters selecting segment type `T2`, absent from the data. -/
def c7filters : Filters :=
  { geographies := [], segmentType := some "T2", dataType := DataType.value,
    yearRange := none, viewMode := ViewMode.normal }

/-- A record using all five schema hierarchy levels. -/
def c8rec : SegRecord :=
  mkRec "G" "S" ["L1", "L2", "L3", "L4", "L5"] [("2024", 100)] (some false) none none

/-- A record whose `is_aggregated` field is absent (JS `undefined`). -/
def c9rec : SegRecord := mkRec "G" "S" [] [("2024", 100)] none (some 1) none

/-- A record whose authored `cagr` is exactly 0. -/
def c10rec : SegRecord := mkRec "G" "S" ["A"] [("2024", 100)] (some false) none (some 0)

/-- The contract between a returned summary and the selection it was computed
from: observed min/max years of the first selected record (with the
filter-range fallback), the start/end sums, and the derived growth and CAGR
formulas. -/
def kpiDerivedOk (data : DashData) (filters : Filters) (k : KpiSummary) : Prop :=
  ∃ tst, targetSegTypeOf data filters = some tst ∧
    (let sel := selectedRecordsOf data filters tst
     let ys := parsedYears ((sel.head?.map (fun r => r.time_series)).getD [])
     (k.startYear = match ys with
        | [] => (filters.yearRange.getD (2024, 2032)).1
        | y :: t => t.foldl min y) ∧
     (k.endYear = match ys with
        | [] => (filters.yearRange.getD (2024, 2032)).2
        | y :: t => t.foldl max y) ∧
     k.marketSizeStart = sel.foldl (fun acc r => acc + yearValue r k.startYear) 0 ∧
     k.marketSizeEnd = sel.foldl (fun acc r => acc + yearValue r k.endYear) 0 ∧
     k.absoluteGrowth = k.marketSizeEnd - k.marketSizeStart ∧
     k.growthPercentage =
       (if k.marketSizeStart > 0 then (k.marketSizeEnd - k.marketSizeStart) / k.marketSizeStart * 100
        else 0) ∧
     kpiCagr k =
       (if 0 < k.marketSizeStart ∧ k.startYear < k.endYear then
         (((k.marketSizeEnd / k.marketSizeStart : ℚ) : ℝ) ^
             ((1 : ℝ) / ((k.endYear - k.startYear : ℤ) : ℝ)) - 1) * 100
        else 0))

/-! ## Infrastructure lemmas about the tree operations -/

theorem findChildList_setChildList (cs : List (String × VNode)) (k q : String)
    (f : VNode → VNode) :
    findChildList (setChildList cs k f) q =
      if q = k then some (f ((findChildList cs k).getD emptyNode)) else findChildList cs q := by
  induction cs with
  | nil =>
      by_cases h : q = k
      · subst h
        simp [setChildList, findChildList]
      · have h' : ¬ k = q := fun hk => h hk.symm
        simp [setChildList, findChildList, h, h']
  | cons hd tl ih =>
      obtain ⟨k', c⟩ := hd
      by_cases hk : k' = k
      · subst hk
        by_cases hq : q = k'
        · subst hq
          simp [setChildList, findChildList]
        · have hq' : ¬ k' = q := fun h => hq h.symm
          simp [setChildList, findChildList, hq, hq']
      · by_cases hq : k' = q
        · subst hq
          have hqk : ¬ k' = k := hk
          simp [setChildList, findChildList, hqk]
        · simp [setChildList, findChildList, hk, hq, ih]

theorem findChild_setChild (n : VNode) (k q : String) (f : VNode → VNode) :
    findChild (setChild n k f) q =
      if q = k then some (f ((findChild n k).getD emptyNode)) else findChild n q := by
  cases n with
  | mk cs ys cg ag lv => exact findChildList_setChildList cs k q f

theorem findChild_emptyNode (k : String) : findChild emptyNode k = none := rfl

theorem getNodeAt_emptyNode (p : List String) (h : p ≠ []) :
    getNodeAt emptyNode p = none := by
  cases p with
  | nil => exact absurd rfl h
  | cons s rest => simp [getNodeAt, findChild_emptyNode]

theorem nodeAtOrEmpty_emptyNode (p : List String) : nodeAtOrEmpty emptyNode p = emptyNode := by
  induction p with
  | nil => rfl
  | cons s rest ih => simpa [nodeAtOrEmpty, findChild_emptyNode] using ih

theorem getNodeAt_modifyAtPath_self (path : List String) (t : VNode) (f : VNode → VNode) :
    getNodeAt (modifyAtPath t path f) path = some (f (nodeAtOrEmpty t path)) := by
  induction path generalizing t with
  | nil => rfl
  | cons s rest ih =>
      simp only [modifyAtPath, getNodeAt, findChild_setChild, if_pos rfl, nodeAtOrEmpty]
      exact ih ((findChild t s).getD emptyNode)


theorem flagAt_emptyNode (h : VNode → Bool) (hemp : h emptyNode = false) (p : List String) :
    flagAt h emptyNode p = false := by
  cases p with
  | nil => simpa [flagAt, getNodeAt] using hemp
  | cons s rest => simp [flagAt, getNodeAt, findChild_emptyNode]

theorem flagAt_setChild (h : VNode → Bool)
    (hset : ∀ cs ys cg ag lv cs', h (VNode.mk cs ys cg ag lv) = h (VNode.mk cs' ys cg ag lv))
    (t : VNode) (s : String) (g : VNode → VNode) :
    flagAt h (setChild t s g) [] = flagAt h t [] := by
  cases t with
  | mk cs ys cg ag lv =>
      simp only [flagAt, getNodeAt, setChild]
      exact hset _ ys cg ag lv cs

/-- How one `modifyAtPath` changes the presence of a monotone field: `f`
preserves children, turns the flag on exactly when `c` holds and never turns
it off, and the flag is independent of the children. -/
theorem flagAt_modifyAtPath (h : VNode → Bool) (f : VNode → VNode) (c : Bool)
    (hch : ∀ n, (f n).children = n.children)
    (hfl : ∀ n, h (f n) = (h n || c))
    (hemp : h emptyNode = false)
    (hset : ∀ cs ys cg ag lv cs', h (VNode.mk cs ys cg ag lv) = h (VNode.mk cs' ys cg ag lv)) :
    ∀ (path p : List String) (t : VNode),
      flagAt h (modifyAtPath t path f) p = (flagAt h t p || (decide (p = path) && c)) := by
  intro path
  induction path with
  | nil =>
      intro p t
      cases p with
      | nil => simpa [flagAt, getNodeAt, modifyAtPath] using hfl t
      | cons q qtail =>
          have hfc : findChild (f t) q = findChild t q := by
            cases t with
            | mk cs ys cg ag lv =>
                simp only [findChild]
                rw [hch (VNode.mk cs ys cg ag lv)]
          simp only [modifyAtPath, flagAt, getNodeAt, hfc]
          simp
  | cons s ptail ih =>
      intro p t
      cases p with
      | nil =>
          have hkeep := flagAt_setChild h hset t s (fun c0 => modifyAtPath c0 ptail f)
          simp only [modifyAtPath]
          rw [hkeep]
          simp
      | cons q qtail =>
          have hfind := findChild_setChild t s q (fun c0 => modifyAtPath c0 ptail f)
          by_cases hq : q = s
          · subst hq
            rw [if_pos rfl] at hfind
            simp only [modifyAtPath, flagAt, getNodeAt, hfind]
            have := ih qtail ((findChild t q).getD emptyNode)
            simp only [flagAt] at this
            rw [this]
            cases hfc : findChild t q with
            | none =>
                have hempty := flagAt_emptyNode h hemp qtail
                simp only [flagAt] at hempty
                simp only [hfc, Option.getD_none, hempty]
                simp
            | some ch =>
                simp only [hfc, Option.getD_some]
                simp
          · rw [if_neg hq] at hfind
            simp only [modifyAtPath, flagAt, getNodeAt, hfind]
            have hne : ¬ (q :: qtail = s :: ptail) := by
              intro hcontra
              exact hq (List.cons.injEq q qtail s ptail ▸ hcontra).1
            simp [hne]


@[simp]
theorem children_mk (cs : List (String × VNode)) (ys : List (String × ℚ)) (cg : Option String)
    (ag : Bool) (lv : Option Int) : (VNode.mk cs ys cg ag lv).children = cs := rfl

@[simp]
theorem years_mk (cs : List (String × VNode)) (ys : List (String × ℚ)) (cg : Option String)
    (ag : Bool) (lv : Option Int) : (VNode.mk cs ys cg ag lv).years = ys := rfl

@[simp]
theorem cagrField_mk (cs : List (String × VNode)) (ys : List (String × ℚ)) (cg : Option String)
    (ag : Bool) (lv : Option Int) : (VNode.mk cs ys cg ag lv).cagrField = cg := rfl

@[simp]
theorem aggregatedFlag_mk (cs : List (String × VNode)) (ys : List (String × ℚ)) (cg : Option String)
    (ag : Bool) (lv : Option Int) : (VNode.mk cs ys cg ag lv).aggregatedFlag = ag := rfl

@[simp]
theorem levelField_mk (cs : List (String × VNode)) (ys : List (String × ℚ)) (cg : Option String)
    (ag : Bool) (lv : Option Int) : (VNode.mk cs ys cg ag lv).levelField = lv := rfl

theorem applyValueLeaf_children (r : SegRecord) (n : VNode) :
    (applyValueLeaf r n).children = n.children := rfl

theorem applyVolumeLeaf_children (r : SegRecord) (n : VNode) :
    (applyVolumeLeaf r n).children = n.children := rfl

theorem cagrPresent_applyValueLeaf (r : SegRecord) (n : VNode) :
    cagrPresent (applyValueLeaf r n) = (cagrPresent n || truthyCagr r) := by
  cases htc : truthyCagr r <;> simp [cagrPresent, applyValueLeaf, htc]

theorem cagrPresent_applyVolumeLeaf (r : SegRecord) (n : VNode) :
    cagrPresent (applyVolumeLeaf r n) = (cagrPresent n || truthyCagr r) := by
  cases htc : truthyCagr r <;> simp [cagrPresent, applyVolumeLeaf, htc]

theorem aggPresent_applyValueLeaf (r : SegRecord) (n : VNode) :
    aggPresent (applyValueLeaf r n) = (aggPresent n || decide (r.is_aggregated = some true)) := by
  simp [aggPresent, applyValueLeaf]

theorem aggPresent_applyVolumeLeaf (r : SegRecord) (n : VNode) :
    aggPresent (applyVolumeLeaf r n) = (aggPresent n || false) := by
  simp [aggPresent, applyVolumeLeaf]

theorem levelPresent_applyValueLeaf (r : SegRecord) (n : VNode) :
    levelPresent (applyValueLeaf r n) =
      (levelPresent n || (decide (r.is_aggregated = some true) && (r.aggregation_level).isSome)) := by
  by_cases hagg : r.is_aggregated = some true
  · cases hal : r.aggregation_level with
    | none => simp [levelPresent, applyValueLeaf, hagg, hal]
    | some l => simp [levelPresent, applyValueLeaf, hagg, hal]
  · simp [levelPresent, applyValueLeaf, hagg]

theorem levelPresent_applyVolumeLeaf (r : SegRecord) (n : VNode) :
    levelPresent (applyVolumeLeaf r n) = (levelPresent n || false) := by
  simp [levelPresent, applyVolumeLeaf]

/-- Folding record insertions accumulates flag presence across records. -/
theorem flagAt_foldl (h : VNode → Bool) (con : SegRecord → Bool)
    (step : VNode → SegRecord → VNode)
    (hstep : ∀ r t p, flagAt h (step t r) p = (flagAt h t p || (decide (p = fullPath r) && con r))) :
    ∀ (rs : List SegRecord) (t : VNode) (p : List String),
      flagAt h (rs.foldl step t) p =
        (flagAt h t p || rs.any (fun r => decide (p = fullPath r) && con r)) := by
  intro rs
  induction rs with
  | nil => simp
  | cons r rest ih =>
      intro t p
      simp only [List.foldl_cons, List.any_cons]
      rw [ih (step t r) p, hstep r t p, Bool.or_assoc]

theorem flagAt_insertValueRecord (h : VNode → Bool) (con : SegRecord → Bool)
    (hfl : ∀ r n, h (applyValueLeaf r n) = (h n || con r))
    (hemp : h emptyNode = false)
    (hset : ∀ cs ys cg ag lv cs', h (VNode.mk cs ys cg ag lv) = h (VNode.mk cs' ys cg ag lv))
    (r : SegRecord) (t : VNode) (p : List String) :
    flagAt h (insertValueRecord t r) p = (flagAt h t p || (decide (p = fullPath r) && con r)) :=
  flagAt_modifyAtPath h (applyValueLeaf r) (con r)
    (applyValueLeaf_children r) (hfl r) hemp hset (fullPath r) p t

theorem flagAt_insertVolumeRecord (h : VNode → Bool) (con : SegRecord → Bool)
    (hfl : ∀ r n, h (applyVolumeLeaf r n) = (h n || con r))
    (hemp : h emptyNode = false)
    (hset : ∀ cs ys cg ag lv cs', h (VNode.mk cs ys cg ag lv) = h (VNode.mk cs' ys cg ag lv))
    (r : SegRecord) (t : VNode) (p : List String) :
    flagAt h (insertVolumeRecord t r) p = (flagAt h t p || (decide (p = fullPath r) && con r)) :=
  flagAt_modifyAtPath h (applyVolumeLeaf r) (con r)
    (applyVolumeLeaf_children r) (hfl r) hemp hset (fullPath r) p t

/-- `CAGR` appears at a path of the value export exactly when some record
with that full path has a truthy `cagr`. -/
theorem cagrPresent_extractValueData (rs : List SegRecord) (p : List String) :
    flagAt cagrPresent (extractValueData rs) p =
      rs.any (fun r => decide (p = fullPath r) && truthyCagr r) := by
  have hbase := flagAt_foldl cagrPresent truthyCagr insertValueRecord
    (flagAt_insertValueRecord cagrPresent truthyCagr cagrPresent_applyValueLeaf rfl
      (fun _ _ _ _ _ _ => rfl)) rs emptyNode p
  rw [extractValueData, hbase, flagAt_emptyNode cagrPresent rfl]
  simp

/-- `CAGR` appears at a path of the volume export exactly when some record
with that full path has a truthy `cagr`. -/
theorem cagrPresent_extractVolumeData (rs : List SegRecord) (p : List String) :
    flagAt cagrPresent (extractVolumeData rs) p =
      rs.any (fun r => decide (p = fullPath r) && truthyCagr r) := by
  have hbase := flagAt_foldl cagrPresent truthyCagr insertVolumeRecord
    (flagAt_insertVolumeRecord cagrPresent truthyCagr cagrPresent_applyVolumeLeaf rfl
      (fun _ _ _ _ _ _ => rfl)) rs emptyNode p
  rw [extractVolumeData, hbase, flagAt_emptyNode cagrPresent rfl]
  simp

/-- `_aggregated` appears at a path of the value export exactly when some
record with that full path has `is_aggregated === true`. -/
theorem aggPresent_extractValueData (rs : List SegRecord) (p : List String) :
    flagAt aggPresent (extractValueData rs) p =
      rs.any (fun r => decide (p = fullPath r) && decide (r.is_aggregated = some true)) := by
  have hbase := flagAt_foldl aggPresent (fun r => decide (r.is_aggregated = some true))
    insertValueRecord
    (flagAt_insertValueRecord aggPresent (fun r => decide (r.is_aggregated = some true))
      aggPresent_applyValueLeaf rfl (fun _ _ _ _ _ _ => rfl)) rs emptyNode p
  rw [extractValueData, hbase, flagAt_emptyNode aggPresent rfl]
  simp

/-- The volume export never carries an `_aggregated` marker anywhere. -/
theorem aggPresent_extractVolumeData (rs : List SegRecord) (p : List String) :
    flagAt aggPresent (extractVolumeData rs) p = false := by
  have hbase := flagAt_foldl aggPresent (fun _ => false) insertVolumeRecord
    (flagAt_insertVolumeRecord aggPresent (fun _ => false)
      aggPresent_applyVolumeLeaf rfl (fun _ _ _ _ _ _ => rfl)) rs emptyNode p
  rw [extractVolumeData, hbase, flagAt_emptyNode aggPresent rfl]
  simp

/-- The volume export never carries a `_level` key anywhere. -/
theorem levelPresent_extractVolumeData (rs : List SegRecord) (p : List String) :
    flagAt levelPresent (extractVolumeData rs) p = false := by
  have hbase := flagAt_foldl levelPresent (fun _ => false) insertVolumeRecord
    (flagAt_insertVolumeRecord levelPresent (fun _ => false)
      levelPresent_applyVolumeLeaf rfl (fun _ _ _ _ _ _ => rfl)) rs emptyNode p
  rw [extractVolumeData, hbase, flagAt_emptyNode levelPresent rfl]
  simp

/-- The descent loop never walks more than `10 - depth` further levels. -/
theorem walkSegments_length (segs : List String) :
    ∀ depth : Nat, (walkSegments segs depth).length ≤ 10 - depth := by
  induction segs with
  | nil => intro depth; simp [walkSegments]
  | cons s rest ih =>
      intro depth
      by_cases hd : depth ≥ 10
      · simp [walkSegments, hd]
      · by_cases hs : s ≠ ""
        · have := ih (depth + 1)
          simp only [walkSegments, if_neg hd, if_pos hs, List.length_cons]
          omega
        · have := ih depth
          simp only [walkSegments, if_neg hd, if_neg hs]
          exact this

/-- A record's leaf path is at most 12 keys long: geography, segment type,
and at most 10 hierarchy levels. -/
theorem fullPath_length (r : SegRecord) : (fullPath r).length ≤ 12 := by
  have := walkSegments_length (segmentsOf r) 0
  simp only [fullPath, List.length_cons]
  omega

/-- Children-preserving path updates create no paths longer than the update
path: a path reachable afterwards was reachable before or fits in the update
path's length. -/
theorem getNodeAt_modifyAtPath_length (f : VNode → VNode)
    (hch : ∀ n, (f n).children = n.children) :
    ∀ (path p : List String) (t : VNode),
      getNodeAt (modifyAtPath t path f) p ≠ none →
        getNodeAt t p ≠ none ∨ p.length ≤ path.length := by
  intro path
  induction path with
  | nil =>
      intro p t hp
      cases p with
      | nil => right; simp
      | cons q qtail =>
          left
          have hfc : findChild (f t) q = findChild t q := by
            cases t with
            | mk cs ys cg ag lv =>
                simp only [findChild]
                rw [hch (VNode.mk cs ys cg ag lv)]
          simpa [modifyAtPath, getNodeAt, hfc] using hp
  | cons s ptail ih =>
      intro p t hp
      cases p with
      | nil => right; simp
      | cons q qtail =>
          have hfind := findChild_setChild t s q (fun c0 => modifyAtPath c0 ptail f)
          by_cases hq : q = s
          · subst hq
            rw [if_pos rfl] at hfind
            simp only [modifyAtPath, getNodeAt, hfind] at hp
            rcases ih qtail ((findChild t q).getD emptyNode) hp with hleft | hright
            · cases hfc : findChild t q with
              | none =>
                  cases qtail with
                  | nil =>
                      right
                      simp
                  | cons w wtail =>
                      exfalso
                      rw [hfc] at hleft
                      exact hleft (getNodeAt_emptyNode (w :: wtail) (by simp))
              | some ch =>
                  left
                  rw [hfc] at hleft
                  simpa [getNodeAt, hfc] using hleft
            · right
              simpa using Nat.succ_le_succ hright
          · rw [if_neg hq] at hfind
            left
            simpa [modifyAtPath, getNodeAt, hfind] using hp

/-- Every path present in the value export is at most 12 keys deep:
geography, segment type and the 10-level hierarchy cap. -/
theorem extractValueData_depth (rs : List SegRecord) :
    ∀ p : List String, getNodeAt (extractValueData rs) p ≠ none → p.length ≤ 12 := by
  suffices h : ∀ (t : VNode), (∀ p, getNodeAt t p ≠ none → p.length ≤ 12) →
      ∀ p, getNodeAt (rs.foldl insertValueRecord t) p ≠ none → p.length ≤ 12 by
    refine h emptyNode ?_
    intro p hp
    cases p with
    | nil => simp
    | cons q qtail => exact absurd (getNodeAt_emptyNode (q :: qtail) (by simp)) hp
  induction rs with
  | nil => intro t ht p hp; exact ht p hp
  | cons r rest ih =>
      intro t ht p hp
      refine ih (insertValueRecord t r) ?_ p hp
      intro p' hp'
      rcases getNodeAt_modifyAtPath_length (applyValueLeaf r) (applyValueLeaf_children r)
        (fullPath r) p' t hp' with hleft | hright
      · exact ht p' hleft
      · exact le_trans hright (fullPath_length r)

/-- `insertGroup` keeps every group member keyed by its group key. -/
theorem insertGroup_sound (k : SegRecord → String) (r : SegRecord) :
    ∀ acc : List (String × List SegRecord),
      (∀ g ∈ acc, ∀ x ∈ g.2, k x = g.1) →
      ∀ g ∈ insertGroup acc (k r) r, ∀ x ∈ g.2, k x = g.1 := by
  intro acc
  induction acc with
  | nil =>
      intro _ g hg x hx
      simp only [insertGroup, List.mem_singleton] at hg
      subst hg
      simp only [List.mem_singleton] at hx
      subst hx
      rfl
  | cons hd tl ih =>
      obtain ⟨k', gr⟩ := hd
      intro hsound g hg x hx
      by_cases hk : k' = k r
      · simp only [insertGroup, if_pos hk, List.mem_cons] at hg
        rcases hg with hg | hg
        · subst hg
          simp only [List.mem_append, List.mem_singleton] at hx
          rcases hx with hx | hx
          · exact hsound (k', gr) (List.mem_cons_self _ _) x hx
          · subst hx
            exact hk.symm
        · exact hsound g (List.mem_cons_of_mem _ hg) x hx
      · simp only [insertGroup, if_neg hk, List.mem_cons] at hg
        rcases hg with hg | hg
        · subst hg
          exact hsound (k', gr) (List.mem_cons_self _ _) x hx
        · exact ih (fun g' hg' => hsound g' (List.mem_cons_of_mem _ hg')) g hg x hx

/-- Every member of a group produced by `groupByKey` has that group's key. -/
theorem groupByKey_sound (k : SegRecord → String) (rs : List SegRecord) :
    ∀ g ∈ groupByKey k rs, ∀ x ∈ g.2, k x = g.1 := by
  suffices h : ∀ (acc : List (String × List SegRecord)),
      (∀ g ∈ acc, ∀ x ∈ g.2, k x = g.1) →
      ∀ g ∈ rs.foldl (fun acc r => insertGroup acc (k r) r) acc, ∀ x ∈ g.2, k x = g.1 by
    exact h [] (by simp)
  induction rs with
  | nil => intro acc hacc; simpa using hacc
  | cons r rest ih =>
      intro acc hacc
      simp only [List.foldl_cons]
      exact ih (insertGroup acc (k r) r) (insertGroup_sound k r acc hacc)

theorem insertGroup_ne_nil (acc : List (String × List SegRecord)) (kk : String) (r : SegRecord) :
    insertGroup acc kk r ≠ [] := by
  cases acc with
  | nil => simp [insertGroup]
  | cons hd tl =>
      obtain ⟨k', g⟩ := hd
      by_cases hk : k' = kk <;> simp [insertGroup, hk]

theorem insertGroup_headKey (acc : List (String × List SegRecord)) (kk : String) (r : SegRecord)
    (h : acc ≠ []) :
    (insertGroup acc kk r).head?.map Prod.fst = acc.head?.map Prod.fst := by
  cases acc with
  | nil => exact absurd rfl h
  | cons hd tl =>
      obtain ⟨k', g⟩ := hd
      by_cases hk : k' = kk <;> simp [insertGroup, hk]

/-- The first group of `groupByKey` is keyed by the first record's key. -/
theorem groupByKey_headKey (k : SegRecord → String) (r : SegRecord) (rs : List SegRecord) :
    (groupByKey k (r :: rs)).head?.map Prod.fst = some (k r) := by
  suffices h : ∀ (rest : List SegRecord) (acc : List (String × List SegRecord)), acc ≠ [] →
      (rest.foldl (fun acc r' => insertGroup acc (k r') r') acc).head?.map Prod.fst =
        acc.head?.map Prod.fst ∧
      rest.foldl (fun acc r' => insertGroup acc (k r') r') acc ≠ [] by
    have hstart : insertGroup ([] : List (String × List SegRecord)) (k r) r = [(k r, [r])] := rfl
    simp only [groupByKey, List.foldl_cons, hstart]
    rw [(h rs [(k r, [r])] (by simp)).1]
    rfl
  intro rest
  induction rest with
  | nil => intro acc hacc; exact ⟨rfl, hacc⟩
  | cons r' rest' ih =>
      intro acc hacc
      simp only [List.foldl_cons]
      have hne := insertGroup_ne_nil acc (k r') r'
      obtain ⟨h1, h2⟩ := ih (insertGroup acc (k r') r') hne
      exact ⟨h1.trans (insertGroup_headKey acc (k r') r' hacc), h2⟩

/-- A record selected by the geography-mode picker comes from the first
segment-type group. -/
theorem geoModePick_mem_first (geoRecords : List SegRecord) (r' : SegRecord)
    (hmem : r' ∈ geoModePick geoRecords) :
    r' ∈ ((groupByKey (fun r => r.segment_type) geoRecords).head?.map Prod.snd).getD [] := by
  simp only [geoModePick] at hmem
  split_ifs at hmem with h1 h2 h3
  all_goals
    first
      | exact (List.mem_filter.mp hmem).1
      | exact hmem.1
      | exact absurd hmem (List.not_mem_nil r')

/-- Geography-mode picking uses only records of the first segment type
encountered for the geography: any selected record has the segment type of
the geography group's first record. -/
theorem geoModePick_segment_type (geoRecords : List SegRecord) (r' : SegRecord)
    (hmem : r' ∈ geoModePick geoRecords) :
    ∃ hd, geoRecords.head? = some hd ∧ r'.segment_type = hd.segment_type := by
  cases geoRecords with
  | nil =>
      have hnil : geoModePick [] = [] := rfl
      rw [hnil] at hmem
      exact absurd hmem (List.not_mem_nil r')
  | cons hd tl =>
      refine ⟨hd, rfl, ?_⟩
      have hfirst := geoModePick_mem_first (hd :: tl) r' hmem
      have hkey := groupByKey_headKey (fun r => r.segment_type) hd tl
      cases hhead : (groupByKey (fun r => r.segment_type) (hd :: tl)).head? with
      | none => rw [hhead] at hkey; simp at hkey
      | some g =>
          rw [hhead] at hkey hfirst
          have hkey' : g.1 = hd.segment_type := Option.some.inj hkey
          have hg : g ∈ groupByKey (fun r => r.segment_type) (hd :: tl) :=
            List.mem_of_mem_head? hhead
          have hsound := groupByKey_sound (fun r => r.segment_type) (hd :: tl) g hg r' hfirst
          simp only at hsound
          rw [hsound, hkey']

/-- Records selected by the non-geography tiers are leaf records whenever at
least one strict leaf record is present. -/
theorem nonGeoSelect_leaf (rs : List SegRecord) (r' : SegRecord) (hmem : r' ∈ nonGeoSelect rs)
    (hex : ∃ r ∈ rs, r.is_aggregated = some false) : r'.is_aggregated = some false := by
  obtain ⟨r, hr, hra⟩ := hex
  have hmemt1 : r ∈ rs.filter (fun x => x.is_aggregated = some false) :=
    List.mem_filter.mpr ⟨hr, by simp [hra]⟩
  have hne : ¬ (rs.filter (fun x => x.is_aggregated = some false)).isEmpty := by
    intro hemp
    rw [List.isEmpty_iff] at hemp
    rw [hemp] at hmemt1
    exact List.not_mem_nil r hmemt1
  simp only [nonGeoSelect] at hmem
  rw [if_pos hne] at hmem
  exact of_decide_eq_true (List.mem_filter.mp hmem).2

/-- `computeKpis` returns `null` exactly when the pipeline selects nothing. -/
theorem computeKpis_none_iff (data : DashData) (filters : Filters) :
    computeKpis data filters = none ↔
      (match targetSegTypeOf data filters with
        | none => True
        | some tst => (datasetOf data filters).isEmpty = true ∨
            (selectedRecordsOf data filters tst).isEmpty = true) := by
  cases htst : targetSegTypeOf data filters with
  | none => simp [computeKpis, htst]
  | some tst =>
      simp only [computeKpis, htst]
      by_cases hds : (datasetOf data filters).isEmpty
      · simp [hds]
      · by_cases hsel : (selectedRecordsOf data filters tst).isEmpty
        · simp [hds, hsel]
        · simp [hds, hsel]

/-- With a selected segment type absent from the dataset (outside geography
mode), every stage of the pipeline comes up empty and `computeKpis` is
`null`. -/
theorem computeKpis_absent_segtype (data : DashData) (filters : Filters) (t : String)
    (hvm : filters.viewMode ≠ ViewMode.geographyMode)
    (htst : targetSegTypeOf data filters = some t)
    (habs : ∀ r ∈ datasetOf data filters, r.segment_type ≠ t) :
    computeKpis data filters = none := by
  have hglobal : globalRecordsOf data filters t = [] := by
    rw [globalRecordsOf, List.filter_eq_nil_iff]
    intro r hr
    simp only [matchesFilters]
    have h2 : (r.segment_type == t) = false := by
      simpa using habs r hr
    have h3 : decide (filters.viewMode = ViewMode.geographyMode) = false := by
      simpa using hvm
    simp [h2, h3]
  have hnil : nonGeoSelect [] = [] := rfl
  have hpre : preSelectedOf data filters t = [] := by
    simp [preSelectedOf, hvm, hglobal, hnil]
  have hall : (datasetOf data filters).filter (fun r => r.segment_type == t) = [] := by
    rw [List.filter_eq_nil_iff]
    intro r hr
    simpa using habs r hr
  have hfb : fallbackOf data filters t = [] := by
    simp [fallbackOf, hall]
  have hsel : selectedRecordsOf data filters t = [] := by
    simp [selectedRecordsOf, hpre, hfb]
  simp only [computeKpis, htst]
  by_cases hds : (datasetOf data filters).isEmpty
  · simp [hds]
  · simp [hds, hsel]

/-! ## The claims -/

unseal Rat.add Rat.sub Rat.mul Rat.inv in
/-- Claim C1: in geography mode, `computeKpis` groups the filtered records by
geography and uses only the first segment type's records per geography (with
the leaf / level-1 / min-level preference inside that sub-group); on an input
with two segment types for the same geography, each with a leaf record
summing to 100 for a year, the geography contributes 100, not 200. -/
theorem claim_C1 :
    (∀ (geoRecords : List SegRecord) (r' : SegRecord), r' ∈ geoModePick geoRecords →
      ∃ hd, geoRecords.head? = some hd ∧ r'.segment_type = hd.segment_type) ∧
    computeKpis c1data c1filters =
      some { marketSizeStart := 100, marketSizeEnd := 100, startYear := 2024, endYear := 2024,
             absoluteGrowth := 0, growthPercentage := 0,
             geographyLabel := "All Geographies", segmentTypeLabel := "S1" } :=
  ⟨geoModePick_segment_type, by decide⟩

/-- Witness for C1 at a concrete input. -/
theorem claim_C1_witness :
    c1r1 ∈ geoModePick [c1r1, c1r2] ∧
    (∃ hd, ([c1r1, c1r2] : List SegRecord).head? = some hd ∧
      c1r1.segment_type = hd.segment_type) :=
  ⟨by decide, claim_C1.1 [c1r1, c1r2] c1r1 (by decide)⟩

unseal Rat.add Rat.sub Rat.mul Rat.inv in
/-- Claim C2: in non-geography mode the selection prefers strict leaf records
(then `aggregation_level === 1`, then the per-pair dedup); given one leaf
record and one aggregated level-1 roll-up, both 100 for the same
geography/segment/year, only the leaf is used and the market sizes reflect
100, not 200. -/
theorem claim_C2 :
    (∀ (rs : List SegRecord) (r' : SegRecord), r' ∈ nonGeoSelect rs →
      (∃ r ∈ rs, r.is_aggregated = some false) → r'.is_aggregated = some false) ∧
    computeKpis c2data c2filters =
      some { marketSizeStart := 100, marketSizeEnd := 100, startYear := 2024, endYear := 2024,
             absoluteGrowth := 0, growthPercentage := 0,
             geographyLabel := "All Geographies", segmentTypeLabel := "S" } :=
  ⟨nonGeoSelect_leaf, by decide⟩

/-- Witness for C2 at a concrete input. -/
theorem claim_C2_witness :
    c2leaf ∈ nonGeoSelect [c2leaf, c2agg] ∧
    (∃ r ∈ ([c2leaf, c2agg] : List SegRecord), r.is_aggregated = some false) ∧
    c2leaf.is_aggregated = some false :=
  ⟨by decide, by decide, claim_C2.1 [c2leaf, c2agg] c2leaf (by decide) (by decide)⟩

/-- Claim C3 (code bug): for the cyclic hierarchy `T → [A]`, `A → [B]`,
`B → [A]`, the structural export does NOT skip the cyclic re-entry of `A`:
the node at path `T > A > B > A` exists and is itself expanded further
(`… > B > A` exists too) until the depth-20 cap, because the visited-set
check compares ever-growing full path strings and can never fire.  The claim
(and the code's own circular-reference comment) say the re-entry is
omitted. -/
theorem claim_C3 :
    (getNodeAt cyclicSegTree ["G", "By X", "T", "A", "B", "A"]).isSome = true ∧
    (getNodeAt cyclicSegTree ["G", "By X", "T", "A", "B", "A", "B", "A"]).isSome = true :=
  ⟨by decide, by decide⟩

unseal Rat.add Rat.sub Rat.mul Rat.inv in
/-- Claim C4 (code bug): the dataset has records only in `US`, the filters
select `India`, so the geography-filtered selection is empty and the fallback
aggregates the `US` records (market sizes 100/110) — yet the returned
`geographyLabel` still reads `India`, because line 213 recomputes the label
from `filters.geographies` and the clearing of the local variable at line 152
is dead.  The claim says the label is cleared to reflect the fallback. -/
theorem claim_C4 :
    computeKpis c4data c4filters =
      some { marketSizeStart := 100, marketSizeEnd := 110, startYear := 2024, endYear := 2025,
             absoluteGrowth := 10, growthPercentage := 10,
             geographyLabel := "India", segmentTypeLabel := "S" } := by
  decide

/-- Claim C5 counterexample: `c5r` is aggregated (`is_aggregated = true`),
yet the volume export carries no `_aggregated` marker at its leaf — the
claim's assertion about the volume export is false. -/
theorem claim_C5_counterexample :
    c5r.is_aggregated = some true ∧
    flagAt aggPresent (extractVolumeData [c5r]) (fullPath c5r) = false :=
  ⟨by decide, by decide⟩

/-- Claim C5 (amended): only the VALUE export carries the aggregation
markers: `_aggregated` appears at a path exactly when an aggregated record
maps there, and an aggregated record's leaf carries `_level` equal to its
`aggregation_level`; the volume export never emits `_aggregated` or `_level`
anywhere. -/
theorem claim_C5 :
    (∀ (rs : List SegRecord) (p : List String),
      flagAt aggPresent (extractValueData rs) p =
        rs.any (fun r => decide (p = fullPath r) && decide (r.is_aggregated = some true))) ∧
    (∀ r : SegRecord, r.is_aggregated = some true →
      (getNodeAt (extractValueData [r]) (fullPath r)).map VNode.levelField =
        some r.aggregation_level) ∧
    (∀ (rs : List SegRecord) (p : List String),
      flagAt aggPresent (extractVolumeData rs) p = false) ∧
    (∀ (rs : List SegRecord) (p : List String),
      flagAt levelPresent (extractVolumeData rs) p = false) := by
  refine ⟨aggPresent_extractValueData, ?_, aggPresent_extractVolumeData,
    levelPresent_extractVolumeData⟩
  intro r hagg
  have h1 : extractValueData [r] = insertValueRecord emptyNode r := rfl
  rw [h1, insertValueRecord, getNodeAt_modifyAtPath_self, nodeAtOrEmpty_emptyNode]
  cases hal : r.aggregation_level with
  | none => simp [applyValueLeaf, hagg, hal, emptyNode]
  | some l => simp [applyValueLeaf, hagg, hal, emptyNode]

/-- Witness for C5's `_level` part at a concrete aggregated record. -/
theorem claim_C5_witness :
    c5r.is_aggregated = some true ∧
    (getNodeAt (extractValueData [c5r]) (fullPath c5r)).map VNode.levelField =
      some c5r.aggregation_level :=
  ⟨by decide, claim_C5.2.1 c5r (by decide)⟩

/-- Claim C6: the summary's `startYear`/`endYear` are the min/max of the
integers parsed from the year keys of the first selected record's time series
(falling back to the filter's year-range bounds only when no key parses), and
the growth fields and the CAGR formula are derived exactly as specified. -/
theorem claim_C6 (data : DashData) (filters : Filters) (k : KpiSummary)
    (h : computeKpis data filters = some k) : kpiDerivedOk data filters k := by
  cases htst : targetSegTypeOf data filters with
  | none => simp [computeKpis, htst] at h
  | some tst =>
      refine ⟨tst, htst, ?_⟩
      simp only [computeKpis, htst] at h
      by_cases hds : (datasetOf data filters).isEmpty
      · simp [hds] at h
      · by_cases hsel : (selectedRecordsOf data filters tst).isEmpty
        · simp [hds, hsel] at h
        · rw [if_neg (by simp [hds])] at h
          rw [if_neg (by simp [hsel])] at h
          have hk := (Option.some.inj h).symm
          subst hk
          refine ⟨rfl, rfl, rfl, rfl, rfl, rfl, ?_⟩
          simp [kpiCagr, cagrReal]

unseal Rat.add Rat.sub Rat.mul Rat.inv in
/-- Witness for C6 at a concrete input. -/
theorem claim_C6_witness :
    computeKpis c6data c6filters = some c6summary ∧ kpiDerivedOk c6data c6filters c6summary :=
  ⟨by decide, claim_C6 c6data c6filters c6summary (by decide)⟩

/-- Claim C7: `computeKpis` returns `null` exactly when no record survives
the pipeline — in particular on an empty/absent dataset and when the selected
segment type is absent from the data (outside geography mode) — and never
returns a zero-filled summary in those cases. -/
theorem claim_C7 :
    (∀ (data : DashData) (filters : Filters),
      computeKpis data filters = none ↔
        (match targetSegTypeOf data filters with
          | none => True
          | some tst => (datasetOf data filters).isEmpty = true ∨
              (selectedRecordsOf data filters tst).isEmpty = true)) ∧
    (∀ (data : DashData) (filters : Filters),
      (datasetOf data filters).isEmpty = true → computeKpis data filters = none) ∧
    (∀ (data : DashData) (filters : Filters) (t : String),
      filters.viewMode ≠ ViewMode.geographyMode →
      targetSegTypeOf data filters = some t →
      (∀ r ∈ datasetOf data filters, r.segment_type ≠ t) →
      computeKpis data filters = none) := by
  refine ⟨computeKpis_none_iff, ?_, computeKpis_absent_segtype⟩
  intro data filters hds
  rw [computeKpis_none_iff data filters]
  cases htst : targetSegTypeOf data filters with
  | none => trivial
  | some tst => exact Or.inl hds

/-- Witness for C7: a selected segment type absent from the data yields
`null`. -/
theorem claim_C7_witness :
    (c7filters.viewMode ≠ ViewMode.geographyMode) ∧
    targetSegTypeOf c7data c7filters = some "T2" ∧
    (∀ r ∈ datasetOf c7data c7filters, r.segment_type ≠ "T2") ∧
    computeKpis c7data c7filters = none :=
  ⟨by decide, by decide, by decide,
    claim_C7.2.2 c7data c7filters "T2" (by decide) (by decide) (by decide)⟩

/-- Claim C8: the record-driven tree walk never descends more than 10
hierarchy levels below the geography and segment-type keys — every path in
the value export is at most 12 keys deep — the walk truncates a too-long
label list at the 10-level cap (shown on a 15-label list), and appending a
record to the input processes it on top of the tree built from the earlier
records, so remaining records continue to be processed. -/
theorem claim_C8 :
    (∀ (segs : List String) (depth : Nat), (walkSegments segs depth).length ≤ 10 - depth) ∧
    (∀ r : SegRecord, (fullPath r).length ≤ 12) ∧
    (∀ (rs : List SegRecord) (p : List String),
      (getNodeAt (extractValueData rs) p).isSome = true → p.length ≤ 12) ∧
    (∀ (rs : List SegRecord) (r : SegRecord),
      extractValueData (rs ++ [r]) = insertValueRecord (extractValueData rs) r) ∧
    walkSegments ["a", "b", "c", "d", "e", "f", "g", "h", "i", "j", "k", "l", "m", "n", "o"] 0 =
      ["a", "b", "c", "d", "e", "f", "g", "h", "i", "j"] := by
  refine ⟨walkSegments_length, fullPath_length, ?_, ?_, by decide⟩
  · intro rs p h
    exact extractValueData_depth rs p (Option.ne_none_iff_isSome.mpr h)
  · intro rs r
    simp [extractValueData]

/-- Witness for C8's depth bound at a concrete record. -/
theorem claim_C8_witness :
    (getNodeAt (extractValueData [c8rec]) (fullPath c8rec)).isSome = true ∧
    (fullPath c8rec).length ≤ 12 :=
  ⟨by decide, claim_C8.2.2.1 [c8rec] (fullPath c8rec) (by decide)⟩

/-- Claim C9: the non-geography leaf tier admits only records with
`is_aggregated` strictly equal to `false`; when no record has that (for
example the field is absent on all records), the leaf tier selects nothing
and the selection falls through to the `aggregation_level === 1` tier or the
per-pair dedup tier. -/
theorem claim_C9 (rs : List SegRecord) (h : ∀ r ∈ rs, r.is_aggregated ≠ some false) :
    rs.filter (fun r => r.is_aggregated = some false) = [] ∧
    nonGeoSelect rs =
      (if ¬ (rs.filter (fun r => r.aggregation_level = some 1)).isEmpty then
        rs.filter (fun r => r.aggregation_level = some 1)
      else dedupByGeoSeg rs) := by
  have hfil : rs.filter (fun r => r.is_aggregated = some false) = [] := by
    rw [List.filter_eq_nil_iff]
    intro a ha
    simpa using h a ha
  refine ⟨hfil, ?_⟩
  simp only [nonGeoSelect, hfil]
  simp

/-- Witness for C9 at a record with `is_aggregated` absent. -/
theorem claim_C9_witness :
    (∀ r ∈ ([c9rec] : List SegRecord), r.is_aggregated ≠ some false) ∧
    (List.filter (fun r => r.is_aggregated = some false) [c9rec] = [] ∧
      nonGeoSelect [c9rec] =
        (if ¬ (List.filter (fun r => r.aggregation_level = some 1) [c9rec]).isEmpty then
          List.filter (fun r => r.aggregation_level = some 1) [c9rec]
        else dedupByGeoSeg [c9rec])) :=
  ⟨by decide, claim_C9 [c9rec] (by decide)⟩

/-- Claim C10: in both exports a `CAGR` key appears at a path exactly when a
record mapping there has a truthy `cagr`; a record's own leaf carries
`CAGR = "<number>%"` when its `cagr` is a nonzero number and no `CAGR` key at
all when it is exactly 0, even though the value is present. -/
theorem claim_C10 :
    (∀ (rs : List SegRecord) (p : List String),
      flagAt cagrPresent (extractValueData rs) p =
        rs.any (fun r => decide (p = fullPath r) && truthyCagr r)) ∧
    (∀ (rs : List SegRecord) (p : List String),
      flagAt cagrPresent (extractVolumeData rs) p =
        rs.any (fun r => decide (p = fullPath r) && truthyCagr r)) ∧
    (∀ (r : SegRecord) (q : ℚ), r.cagr = some q →
      (getNodeAt (extractValueData [r]) (fullPath r)).map VNode.cagrField =
        some (if q ≠ 0 then some (cagrString q) else none) ∧
      (getNodeAt (extractVolumeData [r]) (fullPath r)).map VNode.cagrField =
        some (if q ≠ 0 then some (cagrString q) else none)) ∧
    (∀ r : SegRecord, r.cagr = some 0 →
      flagAt cagrPresent (extractValueData [r]) (fullPath r) = false ∧
      flagAt cagrPresent (extractVolumeData [r]) (fullPath r) = false) := by
  refine ⟨cagrPresent_extractValueData, cagrPresent_extractVolumeData, ?_, ?_⟩
  · intro r q hq
    constructor
    · have h1 : extractValueData [r] = insertValueRecord emptyNode r := rfl
      rw [h1, insertValueRecord, getNodeAt_modifyAtPath_self, nodeAtOrEmpty_emptyNode]
      by_cases h0 : q = 0
      · simp [applyValueLeaf, truthyCagr, hq, h0, emptyNode]
      · simp [applyValueLeaf, truthyCagr, hq, h0, emptyNode]
    · have h1 : extractVolumeData [r] = insertVolumeRecord emptyNode r := rfl
      rw [h1, insertVolumeRecord, getNodeAt_modifyAtPath_self, nodeAtOrEmpty_emptyNode]
      by_cases h0 : q = 0
      · simp [applyVolumeLeaf, truthyCagr, hq, h0, emptyNode]
      · simp [applyVolumeLeaf, truthyCagr, hq, h0, emptyNode]
  · intro r h0
    constructor
    · rw [cagrPresent_extractValueData]
      simp [truthyCagr, h0]
    · rw [cagrPresent_extractVolumeData]
      simp [truthyCagr, h0]

/-- Witness for C10 at a record whose `cagr` is exactly 0. -/
theorem claim_C10_witness :
    c10rec.cagr = some 0 ∧
    (flagAt cagrPresent (extractValueData [c10rec]) (fullPath c10rec) = false ∧
      flagAt cagrPresent (extractVolumeData [c10rec]) (fullPath c10rec) = false) :=
  ⟨by decide, claim_C10.2.2.2 c10rec (by decide)⟩
